import Mathlib

/-!
# traceroute: checksum, probe packet, response classification and hop loop

A shallow embedding of `src/traceroute.cpp`.

* Memory is a list of octets (`Byte = Fin 256`); a `(pointer, length)` pair of
  the source is the list of the `length` octets found at the pointer.
* `uint32_t` / `uint16_t` arithmetic is arithmetic on `Nat` with an explicit
  `% 2 ^ 32` / `% 2 ^ 16` after every operation that can wrap.
* The byte order of the host is a parameter (`Endian`): the source reads and
  writes 16-bit words through `uint16_t` lvalues, so every statement about a
  word "in host order" is proved for both byte orders.
* The operating system (setsockopt, sendto, recvfrom, the clock) is an
  environment that gives, for every hop limit, the outcome of each call.
-/

namespace Traceroute

/-! ## Constants -/

/-- Source line 18: `constexpr int MAX_TTL = 30;` -/
def MAX_TTL : Nat := 30

/-- Source line 19: `constexpr int TIMEOUT = 3;` (seconds). -/
def TIMEOUT : Nat := 3

/-- Source line 20: `constexpr int PACKET_SIZE = 64;` -/
def PACKET_SIZE : Nat := 64

/-- One octet of memory. -/
abbrev Byte := Fin 256

/-- Byte order of the host. -/
inductive Endian where
  | little
  | big
  deriving DecidableEq, Repr

/-- Value of the `uint16_t` stored in two consecutive octets (`*ptr` for a
`const uint16_t* ptr`). -/
def load16 (e : Endian) (b0 b1 : Byte) : Nat :=
  match e with
  | .little => b0.val + 256 * b1.val
  | .big => 256 * b0.val + b1.val

/-- Low octet of a number. -/
def lo8 (v : Nat) : Byte := ⟨v % 256, Nat.mod_lt _ (by decide)⟩

/-- Second octet of a number. -/
def hi8 (v : Nat) : Byte := ⟨v / 256 % 256, Nat.mod_lt _ (by decide)⟩

/-- The two octets that an assignment to a `uint16_t` lvalue stores; the
value is converted to 16 bits first. -/
def store16 (e : Endian) (v : Nat) : List Byte :=
  match e with
  | .little => [lo8 v, hi8 v]
  | .big => [hi8 v, lo8 v]

/-- Memory after a `uint16_t` store of `v` at byte offset `off` of `buf`. -/
def write16 (e : Endian) (buf : List Byte) (off v : Nat) : List Byte :=
  buf.take off ++ store16 e v ++ buf.drop (off + 2)

/-- The `uint16_t` at byte offset `off` of `buf`, when both octets are inside. -/
def read16 (e : Endian) (buf : List Byte) (off : Nat) : Option Nat :=
  match buf.get? off, buf.get? (off + 1) with
  | some b0, some b1 => some (load16 e b0 b1)
  | _, _ => none

/-! ## Checksum engine (source lines 27-43) -/

/-- Lines 31-38: the `while (length > 1)` loop followed by the
`if (length == 1)` tail, on the accumulator `uint32_t sum`.  The list is the
memory from `ptr` on, its length the current value of `length`. -/
def sum_loop (e : Endian) : List Byte → Nat → Nat
  | b0 :: b1 :: rest, sum => sum_loop e rest ((sum + load16 e b0 b1) % 2 ^ 32)
  | [b], sum => (sum + b.val) % 2 ^ 32
  | [], sum => sum

/-- Lines 27-43, `uint16_t compute_checksum(const void* buff, size_t length)`. -/
def compute_checksum (e : Endian) (buff : List Byte) : Nat :=
  let sum := sum_loop e buff 0
  let sum := ((sum >>> 16) + (sum &&& 0xFFFF)) % 2 ^ 32
  let sum := (sum + (sum >>> 16)) % 2 ^ 32
  (2 ^ 32 - 1 - sum) % 2 ^ 16

/-! ## The checksum as the specification words it -/

/-- One's-complement (end-around-carry) addition of two 16-bit values. -/
def oc_add (a b : Nat) : Nat := (a + b) % 65536 + (a + b) / 65536

/-- The consecutive 16-bit host-order words of a buffer, an odd trailing
octet counted as the low byte of a final word. -/
def words (e : Endian) : List Byte → List Nat
  | b0 :: b1 :: rest => load16 e b0 b1 :: words e rest
  | [b] => [b.val]
  | [] => []

/-- The 16-bit one's-complement sum of a list of words. -/
def oc_sum (ws : List Nat) : Nat := ws.foldl oc_add 0

/-- Bitwise complement of the one's-complement sum of the words. -/
def checksum_spec (e : Endian) (buff : List Byte) : Nat :=
  65535 - oc_sum (words e buff)

/-- Plain sum of the words of a buffer, without any wrap-around. -/
def word_total (e : Endian) : List Byte → Nat
  | b0 :: b1 :: rest => load16 e b0 b1 + word_total e rest
  | [b] => b.val
  | [] => 0

/-- Lines 40-42 applied to a value of the accumulator. -/
def fold_complement (sum : Nat) : Nat :=
  let sum := ((sum >>> 16) + (sum &&& 0xFFFF)) % 2 ^ 32
  let sum := (sum + (sum >>> 16)) % 2 ^ 32
  (2 ^ 32 - 1 - sum) % 2 ^ 16

/-- The representative of `n` modulo 65535 that a one's-complement sum keeps:
0 only for 0, otherwise in 1..65535. -/
def oc_norm (n : Nat) : Nat := if n = 0 then 0 else (n - 1) % 65535 + 1

/-! ## Probe packet (source lines 22-25 and 110-117) -/

/-- Modelled from the spec: `ICMP_ECHO` of the system header
`netinet/ip_icmp.h` (not in the repository), the echo-request type. -/
def ICMP_ECHO : Byte := 8

/-- Modelled from the spec: `ICMP_ECHOREPLY` of the system header
`netinet/ip_icmp.h` (not in the repository), the echo-reply type. -/
def ICMP_ECHOREPLY : Byte := 0

/-- Modelled from the spec: `ICMP_TIME_EXCEEDED` of the system header
`netinet/ip_icmp.h` (not in the repository), the time-exceeded type. -/
def ICMP_TIME_EXCEEDED : Byte := 11

/-- Modelled from the spec: `struct icmphdr` of the system header
`netinet/ip_icmp.h` (not in the repository): `uint8_t type`, `uint8_t code`,
`uint16_t checksum`, `uint16_t un.echo.id`, `uint16_t un.echo.sequence`, in
this order without padding, 8 octets. -/
structure icmphdr where
  type : Byte
  code : Byte
  checksum : Nat
  id : Nat
  sequence : Nat
  deriving Repr

/-- Modelled from the spec: `sizeof(struct icmphdr)`, the 8-byte header. -/
def ICMPHDR_SIZE : Nat := 8

/-- Lines 22-25: `struct ICMPPacket`. -/
structure ICMPPacket where
  header : icmphdr
  msg : List Byte
  deriving Repr

/-- The octets of a packet object in memory, `sizeof(packet)` of them from
`&packet` on. -/
def ICMPPacket.bytes (e : Endian) (p : ICMPPacket) : List Byte :=
  [p.header.type, p.header.code] ++ store16 e p.header.checksum ++
    store16 e p.header.id ++ store16 e p.header.sequence ++ p.msg

/-- Line 110: `ICMPPacket packet{};`, every member zero. -/
def zero_packet : ICMPPacket :=
  { header := { type := 0, code := 0, checksum := 0, id := 0, sequence := 0 },
    msg := List.replicate (PACKET_SIZE - ICMPHDR_SIZE) 0 }

/-- Lines 110-117: the probe built in the iteration for `ttl`; `pid` is the
value of `getpid()`. -/
def build_probe (e : Endian) (pid ttl : Nat) : ICMPPacket :=
  let packet := zero_packet
  let packet := { packet with header := { packet.header with type := ICMP_ECHO } }
  let packet := { packet with header := { packet.header with code := 0 } }
  let packet := { packet with header := { packet.header with id := pid % 2 ^ 16 } }
  let packet := { packet with header := { packet.header with sequence := ttl % 2 ^ 16 } }
  let packet := { packet with msg := List.replicate packet.msg.length 0 }
  let packet := { packet with header := { packet.header with checksum := 0 } }
  { packet with
    header := { packet.header with checksum := compute_checksum e (packet.bytes e) } }

/-! ## Response classification (source lines 129 and 149-161) -/

/-- Line 129: `char recv_buffer[1024];` -/
def RECV_BUFFER_SIZE : Nat := 1024

/-- The content of `recv_buffer` after `recvfrom` has returned: the received
octets followed by whatever the rest of the array holds. -/
structure RecvBuffer where
  data : List Byte
  size_eq : data.length = RECV_BUFFER_SIZE

/-- Modelled from the spec: `ip_hdr->ihl` of `struct iphdr` (system header
`netinet/ip.h`, not in the repository), the header-length field: the low 4
bits of octet 0. -/
def ihl (recv_buffer : List Byte) : Option Nat :=
  match recv_buffer.get? 0 with
  | some b => some (b.val % 16)
  | none => none

/-- Line 150: `size_t ip_header_len = ip_hdr->ihl * 4;` -/
def ip_header_len (recv_buffer : List Byte) : Option Nat :=
  match ihl recv_buffer with
  | some h => some (h * 4)
  | none => none

/-- Lines 151-153: `icmp_hdr->type`, the octet at `recv_buffer + ip_header_len`;
`none` when the octet is outside the array. -/
def icmp_type (recv_buffer : List Byte) : Option Byte :=
  match ip_header_len recv_buffer with
  | some off => recv_buffer.get? off
  | none => none

/-- The three branches of lines 153-161. -/
inductive Kind where
  | intermediate
  | reached
  | unexpected (type : Nat)
  deriving DecidableEq, Repr

/-- Lines 153-161: the branch taken for a value of `icmp_hdr->type`. -/
def kind_of_type (t : Byte) : Kind :=
  if t = ICMP_TIME_EXCEEDED then Kind.intermediate
  else if t = ICMP_ECHOREPLY then Kind.reached
  else Kind.unexpected t.val

/-- Lines 149-161: the classification of a received buffer. -/
def classify (recv_buffer : List Byte) : Option Kind :=
  match icmp_type recv_buffer with
  | some t => some (kind_of_type t)
  | none => none

/-! ## Hop loop (source lines 104-162) -/

/-- What one `std::cout << ... ` statement of the loop writes. -/
inductive Line where
  | timed_out (ttl : Nat)
  | intermediate (ttl : Nat) (addr_str : String) (ms : Int)
  | reply (ttl : Nat) (addr_str : String) (ms : Int)
  | destination_reached
  | unexpected (ttl : Nat) (addr_str : String) (ms : Int) (type : Nat)
  deriving DecidableEq, Repr

/-- The characters written by the statement (lines 137, 154, 156, 157, 160). -/
def Line.text : Line → String
  | .timed_out ttl => toString ttl ++ "\t*\tRequest timed out\n"
  | .intermediate ttl addr_str ms =>
      toString ttl ++ "\t" ++ addr_str ++ "\t" ++ toString ms ++ "ms\n"
  | .reply ttl addr_str ms =>
      toString ttl ++ "\t" ++ addr_str ++ "\t" ++ toString ms ++ "ms\n"
  | .destination_reached => "Destination reached.\n"
  | .unexpected ttl addr_str ms type =>
      toString ttl ++ "\t" ++ addr_str ++ "\t" ++ toString ms ++ "ms (ICMP type " ++
        toString type ++ ")\n"

/-- A hop result line: every line of the loop but "Destination reached.". -/
def Line.is_hop_result : Line → Bool
  | .destination_reached => false
  | _ => true

/-- Observable actions of the loop, in program order. -/
inductive Event where
  | perror (msg : String)
  | sendto (packet : List Byte)
  | cout (line : Line)
  | fault
  deriving DecidableEq, Repr

/-- Outcome of `recvfrom` (line 131) with the clock reading of line 144. -/
inductive Recv where
  | timed_out
  | failed
  | received (recv_buffer : RecvBuffer) (addr_str : String) (ms : Int)

/-- What the operating system answers during one iteration: whether
`setsockopt(IP_TTL)` succeeds, whether `sendto` succeeds, and the outcome of
`recvfrom`. -/
structure Hop where
  set_ttl_ok : Bool
  send_ok : Bool
  recv : Recv

/-- Lines 105-161: one iteration of the loop.  The second component is `true`
when the iteration leaves the loop (`break`). -/
def hop_body (e : Endian) (pid : Nat) (hop : Hop) (ttl : Nat) : List Event × Bool :=
  if hop.set_ttl_ok = false then
    ([Event.perror "Failed to set TTL"], false)
  else
    let packet := build_probe e pid ttl
    if hop.send_ok = false then
      ([Event.sendto (packet.bytes e), Event.perror "Failed to send packet"], false)
    else
      match hop.recv with
      | .timed_out =>
          ([Event.sendto (packet.bytes e), Event.cout (Line.timed_out ttl)], false)
      | .failed =>
          ([Event.sendto (packet.bytes e), Event.perror "Failed to receive packet"], false)
      | .received recv_buffer addr_str ms =>
          match classify recv_buffer.data with
          | some Kind.intermediate =>
              ([Event.sendto (packet.bytes e),
                Event.cout (Line.intermediate ttl addr_str ms)], false)
          | some Kind.reached =>
              ([Event.sendto (packet.bytes e), Event.cout (Line.reply ttl addr_str ms),
                Event.cout Line.destination_reached], true)
          | some (Kind.unexpected t) =>
              ([Event.sendto (packet.bytes e),
                Event.cout (Line.unexpected ttl addr_str ms t)], false)
          | none => ([Event.sendto (packet.bytes e), Event.fault], true)

/-- Lines 104-162: `for (int ttl = ...; ttl <= MAX_TTL; ++ttl)`, entered with
the given value of `ttl`. -/
def hop_loop (e : Endian) (pid : Nat) (env : Nat → Hop) (ttl : Nat) : List Event :=
  if ttl ≤ MAX_TTL then
    match hop_body e pid (env ttl) ttl with
    | (events, true) => events
    | (events, false) => events ++ hop_loop e pid env (ttl + 1)
  else []
termination_by MAX_TTL + 1 - ttl
decreasing_by omega

/-- Lines 104-162: the whole loop, `ttl` starting at 1. -/
def run_hops (e : Endian) (pid : Nat) (env : Nat → Hop) : List Event :=
  hop_loop e pid env 1

/-- The lines written to standard output, in order. -/
def cout_lines : List Event → List Line
  | [] => []
  | Event.cout line :: rest => line :: cout_lines rest
  | _ :: rest => cout_lines rest

/-- The hop result lines written to standard output, in order. -/
def hop_results (events : List Event) : List Line :=
  (cout_lines events).filter Line.is_hop_result

/-- The packets handed to `sendto`, in order. -/
def sent_packets : List Event → List (List Byte)
  | [] => []
  | Event.sendto packet :: rest => packet :: sent_packets rest
  | _ :: rest => sent_packets rest

/-- The text of standard output. -/
def cout_text (events : List Event) : String :=
  String.join ((cout_lines events).map Line.text)

/-- The trace of a run that leaves the loop with the echo reply: the first
echo-reply line is followed by "Destination reached." and nothing else. -/
def stops_at_reply : List Event → Prop
  | [] => True
  | Event.cout (Line.reply _ _ _) :: rest => rest = [Event.cout Line.destination_reached]
  | _ :: rest => stops_at_reply rest

/-! ## Sample inputs -/

/-- A receive buffer whose octet 0 is `first`, whose octet 20 is `type`, and
whose other octets are zero. -/
def sample_buffer (first type : Byte) : RecvBuffer :=
  { data := first :: (List.replicate 19 0 ++ type :: List.replicate 1003 0),
    size_eq := by
      rw [List.length_cons, List.length_append, List.length_replicate, List.length_cons,
        List.length_replicate]
      rfl }

/-- Hops 1 to 4 answer with time exceeded, hop 5 is silent, hop 6 is the
destination and answers with an echo reply. -/
def scenario_env : Nat → Hop := fun ttl =>
  if ttl = 5 then { set_ttl_ok := true, send_ok := true, recv := Recv.timed_out }
  else if ttl = 6 then
    { set_ttl_ok := true, send_ok := true,
      recv := Recv.received (sample_buffer 0x45 0) "192.0.2.6" 21 }
  else
    { set_ttl_ok := true, send_ok := true,
      recv := Recv.received (sample_buffer 0x45 11) "10.0.0.1" 4 }

/-- The destination answers the first probe. -/
def direct_env : Nat → Hop := fun _ =>
  { set_ttl_ok := true, send_ok := true,
    recv := Recv.received (sample_buffer 0x45 0) "192.0.2.1" 2 }

/-- Setting the hop limit fails at every hop; everything else would succeed. -/
def ttl_rejected_env : Nat → Hop := fun _ =>
  { set_ttl_ok := false, send_ok := true,
    recv := Recv.received (sample_buffer 0x45 11) "10.0.0.1" 4 }

/-- Hops 1 to 4 answer with time exceeded, hop 5 is silent, the hop limit is
rejected at hop 6, and hop 7 is the destination and answers with an echo
reply. -/
def rejected_after_timeout_env : Nat → Hop := fun ttl =>
  if ttl = 5 then { set_ttl_ok := true, send_ok := true, recv := Recv.timed_out }
  else if ttl = 6 then { set_ttl_ok := false, send_ok := true, recv := Recv.timed_out }
  else if ttl = 7 then
    { set_ttl_ok := true, send_ok := true,
      recv := Recv.received (sample_buffer 0x45 0) "192.0.2.7" 21 }
  else
    { set_ttl_ok := true, send_ok := true,
      recv := Recv.received (sample_buffer 0x45 11) "10.0.0.1" 4 }

/-! ## Lemmas on the checksum -/

theorem load16_lt (e : Endian) (b0 b1 : Byte) : load16 e b0 b1 < 65536 := by
  cases e <;> simp only [load16] <;> omega

theorem sum_loop_eq (e : Endian) (buf : List Byte) (s : Nat) (hs : s < 2 ^ 32) :
    sum_loop e buf s = (s + word_total e buf) % 2 ^ 32 := by
  induction buf, s using sum_loop.induct e with
  | case1 b0 b1 rest sum ih =>
    rw [sum_loop, word_total, ih (Nat.mod_lt _ (by norm_num))]
    omega
  | case2 b sum => simp [sum_loop, word_total]
  | case3 sum =>
    simp only [sum_loop, word_total, Nat.add_zero]
    omega

theorem compute_checksum_eq (e : Endian) (buf : List Byte) :
    compute_checksum e buf = fold_complement (word_total e buf % 2 ^ 32) := by
  simp only [compute_checksum, fold_complement]
  rw [sum_loop_eq e buf 0 (by norm_num)]
  simp

theorem fold_complement_div_mod (x : Nat) :
    fold_complement x =
      (4294967295 - ((x / 65536 + x % 65536) % 4294967296 +
        (x / 65536 + x % 65536) % 4294967296 / 65536) % 4294967296) % 65536 := by
  have h : ∀ y : Nat, y &&& 65535 = y % 65536 := fun y => Nat.and_pow_two_sub_one_eq_mod y 16
  simp only [fold_complement, Nat.shiftRight_eq_div_pow, h]
  norm_num

theorem fold_complement_lt (x : Nat) : fold_complement x < 65536 := by
  rw [fold_complement_div_mod]
  omega

/-- Lines 40-42 on an accumulator split into its two 16-bit halves. -/
theorem fold_complement_halves (h l : Nat) (hh : h < 65536) (hl : l < 65536) :
    fold_complement (65536 * h + l) =
      if h + l < 65536 then 65535 - (h + l) else 131070 - (h + l) := by
  rw [fold_complement_div_mod]
  have h1 : (65536 * h + l) / 65536 = h := by omega
  have h2 : (65536 * h + l) % 65536 = l := by omega
  rw [h1, h2]
  split <;> omega

theorem oc_norm_halves (h l : Nat) (hh : h < 65536) (hl : l < 65536) :
    oc_norm (65536 * h + l) = if h + l < 65536 then h + l else h + l - 65535 := by
  simp only [oc_norm]
  by_cases h0 : 65536 * h + l = 0
  · rw [if_pos h0]
    split <;> omega
  · rw [if_neg h0]
    by_cases hc : h + l < 65536
    · rw [if_pos hc]
      have : 65536 * h + l - 1 = 65535 * h + (h + l - 1) := by omega
      rw [this, Nat.mul_add_mod]
      omega
    · rw [if_neg hc]
      have : 65536 * h + l - 1 = 65535 * (h + 1) + (h + l - 65536) := by omega
      rw [this, Nat.mul_add_mod]
      omega

theorem fold_complement_eq_norm (x : Nat) (hx : x < 2 ^ 32) :
    fold_complement x = 65535 - oc_norm x := by
  norm_num at hx
  have hsplit : x = 65536 * (x / 65536) + x % 65536 := by omega
  have hh : x / 65536 < 65536 := by omega
  have hl : x % 65536 < 65536 := by omega
  rw [hsplit, fold_complement_halves _ _ hh hl, oc_norm_halves _ _ hh hl]
  split <;> omega

theorem fold_complement_round_trip (x : Nat) (hx : x < 2 ^ 32) :
    fold_complement ((x + fold_complement x) % 2 ^ 32) = 0 := by
  norm_num at hx
  have hsplit : x = 65536 * (x / 65536) + x % 65536 := by omega
  have hh : x / 65536 < 65536 := by omega
  have hl : x % 65536 < 65536 := by omega
  generalize x / 65536 = h at hsplit hh
  generalize x % 65536 = l at hsplit hl
  subst hsplit
  rw [fold_complement_halves h l hh hl]
  by_cases hc : h + l < 65536
  · rw [if_pos hc]
    have e1 : (65536 * h + l + (65535 - (h + l))) % 2 ^ 32 = 65536 * h + (65535 - h) := by
      norm_num
      omega
    rw [e1, fold_complement_halves h (65535 - h) hh (by omega)]
    split <;> omega
  · rw [if_neg hc]
    by_cases h5 : h = 65535
    · subst h5
      have e1 : (65536 * 65535 + l + (131070 - (65535 + l))) % 2 ^ 32 =
          65536 * 65535 + 65535 := by
        norm_num
        omega
      rw [e1, fold_complement_halves 65535 65535 (by omega) (by omega)]
      decide
    · have e1 : (65536 * h + l + (131070 - (h + l))) % 2 ^ 32 =
          65536 * (h + 1) + (65534 - h) := by
        norm_num
        omega
      rw [e1, fold_complement_halves (h + 1) (65534 - h) (by omega) (by omega)]
      split <;> omega

theorem oc_add_eq_norm (a b : Nat) (ha : a < 65536) (hb : b < 65536) :
    oc_add a b = oc_norm (a + b) := by
  simp only [oc_add, oc_norm]
  split <;> omega

theorem oc_norm_lt (n : Nat) : oc_norm n < 65536 := by
  simp only [oc_norm]
  split <;> omega

theorem oc_norm_add (a b : Nat) : oc_norm (oc_norm a + b) = oc_norm (a + b) := by
  simp only [oc_norm]
  split <;> split <;> split <;> omega

theorem word_total_append (e : Endian) (a b : List Byte) (ha : a.length % 2 = 0) :
    word_total e (a ++ b) = word_total e a + word_total e b := by
  induction a using word_total.induct e with
  | case1 b0 b1 rest ih =>
    have hr : rest.length % 2 = 0 := by
      simp only [List.length_cons] at ha
      omega
    rw [List.cons_append, List.cons_append, word_total, word_total, ih hr]
    omega
  | case2 b0 => simp at ha
  | case3 => simp [word_total]

theorem word_total_le (e : Endian) (buf : List Byte) :
    word_total e buf ≤ 65535 * ((buf.length + 1) / 2) := by
  induction buf using word_total.induct e with
  | case1 b0 b1 rest ih =>
    have hw := load16_lt e b0 b1
    simp only [word_total, List.length_cons]
    omega
  | case2 b0 =>
    have hb := b0.isLt
    simp only [word_total, List.length_cons, List.length_nil]
    omega
  | case3 => simp [word_total]

theorem word_total_store16 (e : Endian) (v : Nat) (rest : List Byte) :
    word_total e (store16 e v ++ rest) = v % 65536 + word_total e rest := by
  cases e <;> simp only [store16] <;>
    rw [List.cons_append, List.cons_append, List.nil_append, word_total] <;>
    simp only [load16, lo8, hi8] <;> omega

theorem word_total_write16 (e : Endian) (buf : List Byte) (off v : Nat)
    (haligned : off % 2 = 0) (hinside : off + 2 ≤ buf.length) :
    word_total e (write16 e buf off v) =
      word_total e (buf.take off) + v % 65536 + word_total e (buf.drop (off + 2)) := by
  have hlen : (buf.take off).length % 2 = 0 := by
    rw [List.length_take]
    omega
  rw [write16, List.append_assoc, word_total_append e _ _ hlen, word_total_store16]
  omega

theorem store16_length (e : Endian) (v : Nat) : (store16 e v).length = 2 := by
  cases e <;> rfl

theorem write16_write16 (e : Endian) (buf : List Byte) (off a b : Nat)
    (hinside : off + 2 ≤ buf.length) :
    write16 e (write16 e buf off a) off b = write16 e buf off b := by
  have htake : (buf.take off).length = off := by
    rw [List.length_take]
    omega
  have h1 : (write16 e buf off a).take off = buf.take off := by
    rw [write16, List.append_assoc]
    exact List.take_left' htake
  have h2 : (write16 e buf off a).drop (off + 2) = buf.drop (off + 2) := by
    rw [write16]
    apply List.drop_left'
    rw [List.length_append, htake, store16_length]
  rw [write16, h1, h2, write16]

/-- When the words of a buffer add up to the words of another buffer plus the
checksum of that other buffer, the checksum routine returns 0 on it. -/
theorem compute_checksum_validates (e : Endian) (zeroed filled : List Byte)
    (h : word_total e filled = word_total e zeroed + compute_checksum e zeroed) :
    compute_checksum e filled = 0 := by
  rw [compute_checksum_eq e filled, h, compute_checksum_eq e zeroed]
  have hx : word_total e zeroed % 2 ^ 32 < 2 ^ 32 := Nat.mod_lt _ (by norm_num)
  have := fold_complement_round_trip _ hx
  rw [← this]
  congr 1
  omega

theorem oc_sum_foldl (e : Endian) (buf : List Byte) (acc : Nat) (hacc : acc < 65536) :
    (words e buf).foldl oc_add acc = oc_norm (acc + word_total e buf) := by
  induction buf using words.induct e generalizing acc with
  | case1 b0 b1 rest ih =>
    have hw := load16_lt e b0 b1
    simp only [words, word_total, List.foldl_cons]
    rw [oc_add_eq_norm acc _ hacc hw, ih _ (oc_norm_lt _), oc_norm_add, Nat.add_assoc]
  | case2 b0 =>
    have hb := b0.isLt
    simp only [words, word_total, List.foldl_cons, List.foldl_nil]
    exact oc_add_eq_norm acc _ hacc (by omega)
  | case3 =>
    simp only [words, word_total, List.foldl_nil, Nat.add_zero, oc_norm]
    split <;> omega

theorem oc_sum_words (e : Endian) (buf : List Byte) :
    oc_sum (words e buf) = oc_norm (word_total e buf) := by
  rw [oc_sum, oc_sum_foldl e buf 0 (by norm_num), Nat.zero_add]

theorem word_total_replicate (e : Endian) (k : Nat) :
    word_total e (List.replicate (2 * k) (255 : Byte)) = 65535 * k := by
  induction k with
  | zero => simp [word_total]
  | succ k ih =>
    have h2 : 2 * (k + 1) = 2 * k + 1 + 1 := by omega
    rw [h2, List.replicate_succ, List.replicate_succ, word_total, ih]
    have h255 : ((255 : Byte) : Nat) = 255 := rfl
    cases e <;> simp only [load16, h255] <;> omega

/-! ## Lemmas on the probe packet -/

theorem build_probe_bytes (e : Endian) (pid ttl : Nat) :
    (build_probe e pid ttl).bytes e =
      write16 e ([ICMP_ECHO, 0] ++ store16 e 0 ++ store16 e (pid % 2 ^ 16) ++
        store16 e (ttl % 2 ^ 16) ++ List.replicate 56 0) 2
        (compute_checksum e ([ICMP_ECHO, 0] ++ store16 e 0 ++ store16 e (pid % 2 ^ 16) ++
          store16 e (ttl % 2 ^ 16) ++ List.replicate 56 0)) := by
  cases e <;> rfl

theorem probe_template_zero (e : Endian) (pid ttl : Nat) :
    write16 e ([ICMP_ECHO, 0] ++ store16 e 0 ++ store16 e (pid % 2 ^ 16) ++
        store16 e (ttl % 2 ^ 16) ++ List.replicate 56 0) 2 0 =
      [ICMP_ECHO, 0] ++ store16 e 0 ++ store16 e (pid % 2 ^ 16) ++
        store16 e (ttl % 2 ^ 16) ++ List.replicate 56 0 := by
  cases e <;> rfl

theorem probe_template_length (e : Endian) (pid ttl : Nat) :
    ([ICMP_ECHO, 0] ++ store16 e 0 ++ store16 e (pid % 2 ^ 16) ++
        store16 e (ttl % 2 ^ 16) ++ List.replicate 56 0).length = 64 := by
  cases e <;> rfl

theorem compute_checksum_lt (e : Endian) (buf : List Byte) : compute_checksum e buf < 65536 := by
  rw [compute_checksum_eq]
  exact fold_complement_lt _

theorem read16_write16 (e : Endian) (buf : List Byte) (off v : Nat)
    (hinside : off + 2 ≤ buf.length) :
    read16 e (write16 e buf off v) off = some (v % 65536) := by
  have htake : (buf.take off).length = off := by
    rw [List.length_take]
    omega
  have h0 : (write16 e buf off v)[off]? = (store16 e v)[0]? := by
    rw [write16, List.append_assoc, List.getElem?_append_right (by omega), htake,
      Nat.sub_self, List.getElem?_append_left (by rw [store16_length]; omega)]
  have h1 : (write16 e buf off v)[off + 1]? = (store16 e v)[1]? := by
    rw [write16, List.append_assoc, List.getElem?_append_right (by omega), htake,
      Nat.add_sub_cancel_left, List.getElem?_append_left (by rw [store16_length]; omega)]
  rw [read16, List.get?_eq_getElem?, List.get?_eq_getElem?, h0, h1]
  cases e <;> simp only [store16, List.getElem?_cons_zero, List.getElem?_cons_succ, load16,
    lo8, hi8] <;> congr 1 <;> omega

theorem stored_checksum_validates (e : Endian) (buf : List Byte) (off : Nat)
    (haligned : off % 2 = 0) (hinside : off + 2 ≤ buf.length) :
    compute_checksum e (write16 e buf off (compute_checksum e (write16 e buf off 0))) = 0 := by
  apply compute_checksum_validates e (write16 e buf off 0)
  rw [word_total_write16 e buf off _ haligned hinside,
    word_total_write16 e buf off 0 haligned hinside]
  have hc := compute_checksum_lt e (write16 e buf off 0)
  omega

/-! ## Lemmas on the classification and the hop loop -/

theorem hop_loop_unfold (e : Endian) (pid : Nat) (env : Nat → Hop) (ttl : Nat)
    (h : ttl ≤ MAX_TTL) :
    hop_loop e pid env ttl =
      (hop_body e pid (env ttl) ttl).1 ++
        if (hop_body e pid (env ttl) ttl).2 = true then [] else hop_loop e pid env (ttl + 1) := by
  rw [hop_loop, if_pos h]
  rcases hb : hop_body e pid (env ttl) ttl with ⟨events, brk⟩
  cases brk <;> simp

theorem hop_loop_done (e : Endian) (pid : Nat) (env : Nat → Hop) (ttl : Nat)
    (h : MAX_TTL < ttl) : hop_loop e pid env ttl = [] := by
  rw [hop_loop, if_neg (by omega)]

theorem classify_some (rb : RecvBuffer) :
    ∃ b0 t, rb.data.get? 0 = some b0 ∧ rb.data.get? ((b0.val % 16) * 4) = some t ∧
      ip_header_len rb.data = some ((b0.val % 16) * 4) ∧
      icmp_type rb.data = some t ∧ classify rb.data = some (kind_of_type t) := by
  have hsize := rb.size_eq
  simp only [RECV_BUFFER_SIZE] at hsize
  have h0 : 0 < rb.data.length := by omega
  have hoff : (rb.data[0].val % 16) * 4 < rb.data.length := by omega
  have g0 : rb.data.get? 0 = some rb.data[0] := by
    rw [List.get?_eq_getElem?]
    exact List.getElem?_eq_getElem h0
  have goff : rb.data.get? ((rb.data[0].val % 16) * 4) =
      some rb.data[(rb.data[0].val % 16) * 4] := by
    rw [List.get?_eq_getElem?]
    exact List.getElem?_eq_getElem hoff
  refine ⟨rb.data[0], rb.data[(rb.data[0].val % 16) * 4], g0, goff, ?_, ?_, ?_⟩
  · simp only [ip_header_len, ihl, g0]
  · simp only [icmp_type, ip_header_len, ihl, g0, goff]
  · simp only [classify, icmp_type, ip_header_len, ihl, g0, goff]

/-- Every shape an iteration can take. -/
theorem hop_body_cases (e : Endian) (pid : Nat) (hop : Hop) (ttl : Nat) :
    hop_body e pid hop ttl = ([Event.perror "Failed to set TTL"], false) ∨
    hop_body e pid hop ttl = ([Event.sendto ((build_probe e pid ttl).bytes e),
      Event.perror "Failed to send packet"], false) ∨
    hop_body e pid hop ttl = ([Event.sendto ((build_probe e pid ttl).bytes e),
      Event.cout (Line.timed_out ttl)], false) ∨
    hop_body e pid hop ttl = ([Event.sendto ((build_probe e pid ttl).bytes e),
      Event.perror "Failed to receive packet"], false) ∨
    (∃ addr_str ms, hop_body e pid hop ttl =
      ([Event.sendto ((build_probe e pid ttl).bytes e),
        Event.cout (Line.intermediate ttl addr_str ms)], false)) ∨
    (∃ addr_str ms, hop_body e pid hop ttl =
      ([Event.sendto ((build_probe e pid ttl).bytes e),
        Event.cout (Line.reply ttl addr_str ms),
        Event.cout Line.destination_reached], true)) ∨
    (∃ addr_str ms t, hop_body e pid hop ttl =
      ([Event.sendto ((build_probe e pid ttl).bytes e),
        Event.cout (Line.unexpected ttl addr_str ms t)], false)) := by
  rcases hop with ⟨set_ok, send_ok, recv⟩
  cases set_ok
  · left; rfl
  · cases send_ok
    · right; left; rfl
    · cases recv with
      | timed_out => right; right; left; rfl
      | failed => right; right; right; left; rfl
      | received rb addr_str ms =>
        obtain ⟨b0, t, -, -, -, -, hk⟩ := classify_some rb
        generalize kind_of_type t = k at hk
        right; right; right; right
        cases k with
        | intermediate => left; exact ⟨addr_str, ms, by simp [hop_body, hk]⟩
        | reached => right; left; exact ⟨addr_str, ms, by simp [hop_body, hk]⟩
        | unexpected u => right; right; exact ⟨addr_str, ms, u, by simp [hop_body, hk]⟩

theorem cout_lines_append (a b : List Event) :
    cout_lines (a ++ b) = cout_lines a ++ cout_lines b := by
  induction a with
  | nil => rfl
  | cons x rest ih => cases x <;> simp [cout_lines, ih]

theorem hop_results_append (a b : List Event) :
    hop_results (a ++ b) = hop_results a ++ hop_results b := by
  simp [hop_results, cout_lines_append]

theorem hop_body_results_le (e : Endian) (pid : Nat) (hop : Hop) (ttl : Nat) :
    (hop_results (hop_body e pid hop ttl).1).length ≤ 1 := by
  rcases hop_body_cases e pid hop ttl with h | h | h | h | ⟨a, m, h⟩ | ⟨a, m, h⟩ | ⟨a, m, t, h⟩ <;>
    rw [h] <;> simp [hop_results, cout_lines, Line.is_hop_result]

theorem hop_loop_results_le (e : Endian) (pid : Nat) (env : Nat → Hop) (n : Nat) :
    ∀ ttl, MAX_TTL + 1 - ttl = n → (hop_results (hop_loop e pid env ttl)).length ≤ n := by
  induction n with
  | zero =>
    intro ttl h
    rw [hop_loop_done e pid env ttl (by omega)]
    simp [hop_results, cout_lines]
  | succ n ih =>
    intro ttl h
    rw [hop_loop_unfold e pid env ttl (by omega), hop_results_append, List.length_append]
    have h1 := hop_body_results_le e pid (env ttl) ttl
    have h2 := ih (ttl + 1) (by omega)
    split
    · have h0 : (hop_results ([] : List Event)).length = 0 := rfl
      omega
    · omega

theorem hop_loop_stops_at_reply (e : Endian) (pid : Nat) (env : Nat → Hop) (n : Nat) :
    ∀ ttl, MAX_TTL + 1 - ttl = n → stops_at_reply (hop_loop e pid env ttl) := by
  induction n with
  | zero =>
    intro ttl h
    rw [hop_loop_done e pid env ttl (by omega)]
    trivial
  | succ n ih =>
    intro ttl h
    have h2 := ih (ttl + 1) (by omega)
    rw [hop_loop_unfold e pid env ttl (by omega)]
    rcases hop_body_cases e pid (env ttl) ttl with
      h | h | h | h | ⟨a, m, h⟩ | ⟨a, m, h⟩ | ⟨a, m, t, h⟩ <;>
      rw [h] <;> simp [stops_at_reply, h2]

theorem stops_at_reply_split (events : List Event) (hstop : stops_at_reply events) :
    ∀ (before after : List Event) (ttl : Nat) (addr_str : String) (ms : Int),
      events = before ++ Event.cout (Line.reply ttl addr_str ms) :: after →
      after = [Event.cout Line.destination_reached] := by
  induction events using stops_at_reply.induct with
  | case1 =>
    intro before after ttl addr_str ms h
    simp at h
  | case2 t0 a0 m0 rest =>
    intro before after ttl addr_str ms h
    simp only [stops_at_reply] at hstop
    cases before with
    | nil =>
      simp only [List.nil_append, List.cons.injEq] at h
      rw [← h.2]
      exact hstop
    | cons x before =>
      simp only [List.cons_append, List.cons.injEq] at h
      rw [hstop] at h
      have hlen := congrArg List.length h.2
      simp at hlen
      have hb : before = [] := by
        cases before with
        | nil => rfl
        | cons y ys =>
          simp only [List.length_cons] at hlen
          omega
      rw [hb] at h
      simp at h
  | case3 x rest hx ih =>
    intro before after ttl addr_str ms h
    cases before with
    | nil =>
      simp only [List.nil_append, List.cons.injEq] at h
      exact absurd h.1 (by
        intro hx2
        exact hx _ _ _ hx2)
    | cons y before =>
      simp only [List.cons_append, List.cons.injEq] at h
      have hstop2 : stops_at_reply rest := by
        rw [stops_at_reply] at hstop
        · exact hstop
        · exact hx
      exact ih hstop2 before after ttl addr_str ms h.2


theorem hop_body_set_ttl_failed (e : Endian) (pid : Nat) (hop : Hop) (ttl : Nat)
    (hfail : hop.set_ttl_ok = false) :
    hop_body e pid hop ttl = ([Event.perror "Failed to set TTL"], false) := by
  simp [hop_body, hfail]

theorem hop_body_timed_out (e : Endian) (pid : Nat) (hop : Hop) (ttl : Nat)
    (hset : hop.set_ttl_ok = true) (hsend : hop.send_ok = true)
    (hrecv : hop.recv = Recv.timed_out) :
    hop_body e pid hop ttl =
      ([Event.sendto ((build_probe e pid ttl).bytes e), Event.cout (Line.timed_out ttl)],
        false) := by
  simp [hop_body, hset, hsend, hrecv]

theorem hop_body_head (e : Endian) (pid : Nat) (hop : Hop) (ttl : Nat)
    (hok : hop.set_ttl_ok = true) :
    ∃ rest, (hop_body e pid hop ttl).1 = Event.sendto ((build_probe e pid ttl).bytes e) :: rest := by
  rcases hop with ⟨set_ok, send_ok, recv⟩
  simp only at hok
  subst hok
  cases send_ok
  · exact ⟨_, rfl⟩
  · cases recv with
    | timed_out => exact ⟨_, rfl⟩
    | failed => exact ⟨_, rfl⟩
    | received rb addr_str ms =>
      obtain ⟨b0, t, -, -, -, -, hk⟩ := classify_some rb
      generalize kind_of_type t = k at hk
      cases k <;> simp [hop_body, hk]

theorem hop_loop_all_rejected (e : Endian) (pid : Nat) (env : Nat → Hop)
    (hfail : ∀ ttl, (env ttl).set_ttl_ok = false) (n : Nat) :
    ∀ ttl, MAX_TTL + 1 - ttl = n →
      hop_loop e pid env ttl = List.replicate n (Event.perror "Failed to set TTL") := by
  induction n with
  | zero =>
    intro ttl h
    rw [hop_loop_done e pid env ttl (by omega)]
    rfl
  | succ n ih =>
    intro ttl h
    rw [hop_loop_unfold e pid env ttl (by omega),
      hop_body_set_ttl_failed e pid (env ttl) ttl (hfail ttl), ih (ttl + 1) (by omega)]
    rfl

/-! ## Sample runs -/

theorem direct_run (e : Endian) (pid : Nat) : run_hops e pid direct_env =
    [Event.sendto ((build_probe e pid 1).bytes e), Event.cout (Line.reply 1 "192.0.2.1" 2),
      Event.cout Line.destination_reached] := by
  have b1 : hop_body e pid (direct_env 1) 1 = ([Event.sendto ((build_probe e pid 1).bytes e),
      Event.cout (Line.reply 1 "192.0.2.1" 2), Event.cout Line.destination_reached], true) := rfl
  rw [run_hops, hop_loop_unfold e pid _ 1 (by decide), b1]
  rfl

theorem scenario_run (e : Endian) (pid : Nat) : run_hops e pid scenario_env =
    [Event.sendto ((build_probe e pid 1).bytes e), Event.cout (Line.intermediate 1 "10.0.0.1" 4),
     Event.sendto ((build_probe e pid 2).bytes e), Event.cout (Line.intermediate 2 "10.0.0.1" 4),
     Event.sendto ((build_probe e pid 3).bytes e), Event.cout (Line.intermediate 3 "10.0.0.1" 4),
     Event.sendto ((build_probe e pid 4).bytes e), Event.cout (Line.intermediate 4 "10.0.0.1" 4),
     Event.sendto ((build_probe e pid 5).bytes e), Event.cout (Line.timed_out 5),
     Event.sendto ((build_probe e pid 6).bytes e), Event.cout (Line.reply 6 "192.0.2.6" 21),
     Event.cout Line.destination_reached] := by
  have b1 : hop_body e pid (scenario_env 1) 1 = ([Event.sendto ((build_probe e pid 1).bytes e),
      Event.cout (Line.intermediate 1 "10.0.0.1" 4)], false) := rfl
  have b2 : hop_body e pid (scenario_env 2) 2 = ([Event.sendto ((build_probe e pid 2).bytes e),
      Event.cout (Line.intermediate 2 "10.0.0.1" 4)], false) := rfl
  have b3 : hop_body e pid (scenario_env 3) 3 = ([Event.sendto ((build_probe e pid 3).bytes e),
      Event.cout (Line.intermediate 3 "10.0.0.1" 4)], false) := rfl
  have b4 : hop_body e pid (scenario_env 4) 4 = ([Event.sendto ((build_probe e pid 4).bytes e),
      Event.cout (Line.intermediate 4 "10.0.0.1" 4)], false) := rfl
  have b5 : hop_body e pid (scenario_env 5) 5 = ([Event.sendto ((build_probe e pid 5).bytes e),
      Event.cout (Line.timed_out 5)], false) := rfl
  have b6 : hop_body e pid (scenario_env 6) 6 = ([Event.sendto ((build_probe e pid 6).bytes e),
      Event.cout (Line.reply 6 "192.0.2.6" 21), Event.cout Line.destination_reached], true) := rfl
  rw [run_hops, hop_loop_unfold e pid _ 1 (by decide), b1,
    hop_loop_unfold e pid _ 2 (by decide), b2,
    hop_loop_unfold e pid _ 3 (by decide), b3,
    hop_loop_unfold e pid _ 4 (by decide), b4,
    hop_loop_unfold e pid _ 5 (by decide), b5,
    hop_loop_unfold e pid _ 6 (by decide), b6]
  rfl

theorem rejected_after_timeout_run (e : Endian) (pid : Nat) :
    run_hops e pid rejected_after_timeout_env =
    [Event.sendto ((build_probe e pid 1).bytes e), Event.cout (Line.intermediate 1 "10.0.0.1" 4),
     Event.sendto ((build_probe e pid 2).bytes e), Event.cout (Line.intermediate 2 "10.0.0.1" 4),
     Event.sendto ((build_probe e pid 3).bytes e), Event.cout (Line.intermediate 3 "10.0.0.1" 4),
     Event.sendto ((build_probe e pid 4).bytes e), Event.cout (Line.intermediate 4 "10.0.0.1" 4),
     Event.sendto ((build_probe e pid 5).bytes e), Event.cout (Line.timed_out 5),
     Event.perror "Failed to set TTL",
     Event.sendto ((build_probe e pid 7).bytes e), Event.cout (Line.reply 7 "192.0.2.7" 21),
     Event.cout Line.destination_reached] := by
  have b1 : hop_body e pid (rejected_after_timeout_env 1) 1 =
      ([Event.sendto ((build_probe e pid 1).bytes e),
        Event.cout (Line.intermediate 1 "10.0.0.1" 4)], false) := rfl
  have b2 : hop_body e pid (rejected_after_timeout_env 2) 2 =
      ([Event.sendto ((build_probe e pid 2).bytes e),
        Event.cout (Line.intermediate 2 "10.0.0.1" 4)], false) := rfl
  have b3 : hop_body e pid (rejected_after_timeout_env 3) 3 =
      ([Event.sendto ((build_probe e pid 3).bytes e),
        Event.cout (Line.intermediate 3 "10.0.0.1" 4)], false) := rfl
  have b4 : hop_body e pid (rejected_after_timeout_env 4) 4 =
      ([Event.sendto ((build_probe e pid 4).bytes e),
        Event.cout (Line.intermediate 4 "10.0.0.1" 4)], false) := rfl
  have b5 : hop_body e pid (rejected_after_timeout_env 5) 5 =
      ([Event.sendto ((build_probe e pid 5).bytes e), Event.cout (Line.timed_out 5)],
        false) := rfl
  have b6 : hop_body e pid (rejected_after_timeout_env 6) 6 =
      ([Event.perror "Failed to set TTL"], false) := rfl
  have b7 : hop_body e pid (rejected_after_timeout_env 7) 7 =
      ([Event.sendto ((build_probe e pid 7).bytes e),
        Event.cout (Line.reply 7 "192.0.2.7" 21), Event.cout Line.destination_reached],
        true) := rfl
  rw [run_hops, hop_loop_unfold e pid _ 1 (by decide), b1,
    hop_loop_unfold e pid _ 2 (by decide), b2,
    hop_loop_unfold e pid _ 3 (by decide), b3,
    hop_loop_unfold e pid _ 4 (by decide), b4,
    hop_loop_unfold e pid _ 5 (by decide), b5,
    hop_loop_unfold e pid _ 6 (by decide), b6,
    hop_loop_unfold e pid _ 7 (by decide), b7]
  rfl

theorem fault_not_mem_hop_loop (e : Endian) (pid : Nat) (env : Nat → Hop) (n : Nat) :
    ∀ ttl, MAX_TTL + 1 - ttl = n → Event.fault ∉ hop_loop e pid env ttl := by
  induction n with
  | zero =>
    intro ttl h
    rw [hop_loop_done e pid env ttl (by omega)]
    simp
  | succ n ih =>
    intro ttl h
    have h2 := ih (ttl + 1) (by omega)
    rw [hop_loop_unfold e pid env ttl (by omega)]
    rcases hop_body_cases e pid (env ttl) ttl with
      h | h | h | h | ⟨a, m, h⟩ | ⟨a, m, h⟩ | ⟨a, m, t, h⟩ <;>
      rw [h] <;> simp [h2]

/-! ## The claims -/

/-- C1: checksum round trip.  In any buffer, for any 2-byte-aligned 16-bit
field inside it: zero the field, compute the checksum of the buffer, store it
in the field in host order; the checksum of the result is 0. -/
theorem checksum_round_trip (e : Endian) (buf : List Byte) (off : Nat)
    (haligned : off % 2 = 0) (hinside : off + 2 ≤ buf.length) :
    compute_checksum e
      (write16 e (write16 e buf off 0) off (compute_checksum e (write16 e buf off 0))) = 0 := by
  rw [write16_write16 e buf off _ _ hinside]
  exact stored_checksum_validates e buf off haligned hinside

theorem checksum_round_trip_witness :
    (2 % 2 = 0 ∧ 2 + 2 ≤ ([1, 2, 3, 4, 5] : List Byte).length) ∧
    write16 Endian.little [1, 2, 3, 4, 5] 2 0 = [1, 2, 0, 0, 5] ∧
    compute_checksum Endian.little [1, 2, 0, 0, 5] = 0xFDF9 ∧
    compute_checksum Endian.little
      (write16 Endian.little (write16 Endian.little [1, 2, 3, 4, 5] 2 0) 2
        (compute_checksum Endian.little (write16 Endian.little [1, 2, 3, 4, 5] 2 0))) = 0 :=
  ⟨by decide, by decide, by decide,
    checksum_round_trip Endian.little [1, 2, 3, 4, 5] 2 (by decide) (by decide)⟩

/-- C2, on the buffers where it holds: for every buffer of at most 131074
octets (odd and zero lengths included) `compute_checksum` returns the bitwise
complement of the 16-bit one's-complement sum of the host-order words of the
buffer, an odd trailing octet counted as the low byte of a final word; for the
empty buffer it returns 0xFFFF. -/
theorem compute_checksum_refines (e : Endian) (buff : List Byte)
    (hlen : buff.length ≤ 131074) :
    compute_checksum e buff = checksum_spec e buff ∧ compute_checksum e [] = 0xFFFF := by
  constructor
  · have hle := word_total_le e buff
    have hlt : word_total e buff < 2 ^ 32 := by
      norm_num
      omega
    rw [compute_checksum_eq, Nat.mod_eq_of_lt hlt, fold_complement_eq_norm _ hlt,
      checksum_spec, oc_sum_words]
  · cases e <;> decide

theorem compute_checksum_refines_witness :
    ([0xFF, 0xFF, 0x01, 0x80, 0x07] : List Byte).length ≤ 131074 ∧
    checksum_spec Endian.big [0xFF, 0xFF, 0x01, 0x80, 0x07] = 0xFE78 ∧
    (compute_checksum Endian.big [0xFF, 0xFF, 0x01, 0x80, 0x07] =
        checksum_spec Endian.big [0xFF, 0xFF, 0x01, 0x80, 0x07] ∧
      compute_checksum Endian.big [] = 0xFFFF) :=
  ⟨by decide, by decide,
    compute_checksum_refines Endian.big [0xFF, 0xFF, 0x01, 0x80, 0x07] (by decide)⟩

/-- C2 fails as stated: on a buffer of 131076 octets 0xFF the 32-bit
accumulator wraps and `compute_checksum` returns 1, while the complement of
the one's-complement sum of the words is 0. -/
theorem compute_checksum_wraps :
    compute_checksum Endian.little (List.replicate 131076 255) = 1 ∧
      checksum_spec Endian.little (List.replicate 131076 255) = 0 ∧
      compute_checksum Endian.little (List.replicate 131076 255) ≠
        checksum_spec Endian.little (List.replicate 131076 255) := by
  have hn : (131076 : Nat) = 2 * 65538 := by norm_num
  have h1 : compute_checksum Endian.little (List.replicate 131076 255) = 1 := by
    rw [compute_checksum_eq, hn, word_total_replicate]
    decide
  have h2 : checksum_spec Endian.little (List.replicate 131076 255) = 0 := by
    rw [checksum_spec, oc_sum_words, hn, word_total_replicate]
    decide
  refine ⟨h1, h2, ?_⟩
  rw [h1, h2]
  decide

/-- C3: whatever the outcomes of the calls at each hop, the loop writes at
most 30 hop result lines, and once the line of an echo reply has been written
the only thing that follows is "Destination reached.": no hop result comes
after it. -/
theorem hop_loop_bounded_and_stops (e : Endian) (pid : Nat) (env : Nat → Hop) :
    (hop_results (run_hops e pid env)).length ≤ 30 ∧
      ∀ (before after : List Event) (ttl : Nat) (addr_str : String) (ms : Int),
        run_hops e pid env = before ++ Event.cout (Line.reply ttl addr_str ms) :: after →
        after = [Event.cout Line.destination_reached] ∧ hop_results after = [] := by
  constructor
  · exact hop_loop_results_le e pid env 30 1 rfl
  · intro before after ttl addr_str ms h
    have hstop := hop_loop_stops_at_reply e pid env 30 1 rfl
    have hafter := stops_at_reply_split _ hstop before after ttl addr_str ms h
    exact ⟨hafter, by rw [hafter]; rfl⟩

theorem hop_loop_bounded_and_stops_witness :
    run_hops Endian.little 4242 direct_env =
        [Event.sendto ((build_probe Endian.little 4242 1).bytes Endian.little)] ++
          Event.cout (Line.reply 1 "192.0.2.1" 2) :: [Event.cout Line.destination_reached] ∧
      (hop_results (run_hops Endian.little 4242 direct_env)).length ≤ 30 ∧
      ([Event.cout Line.destination_reached] = [Event.cout Line.destination_reached] ∧
        hop_results [Event.cout Line.destination_reached] = []) :=
  ⟨direct_run Endian.little 4242,
    (hop_loop_bounded_and_stops Endian.little 4242 direct_env).1,
    (hop_loop_bounded_and_stops Endian.little 4242 direct_env).2
      [Event.sendto ((build_probe Endian.little 4242 1).bytes Endian.little)]
      [Event.cout Line.destination_reached] 1 "192.0.2.1" 2 (direct_run Endian.little 4242)⟩

/-- C4: the classification of a received buffer is decided by the single
octet at offset 4*h, h being the low 4 bits of octet 0: 11 gives
intermediate-hop, 0 gives destination-reached, any other value t gives
unexpected-type reported with the number t; with h = 5 the octet is the one
at offset 20. -/
theorem classification_by_type_octet (rb : RecvBuffer) :
    ∃ b0 t, rb.data.get? 0 = some b0 ∧ rb.data.get? (4 * (b0.val % 16)) = some t ∧
      classify rb.data =
        some (if t.val = 11 then Kind.intermediate
          else if t.val = 0 then Kind.reached else Kind.unexpected t.val) ∧
      (b0.val % 16 = 5 → rb.data.get? 20 = some t) ∧
      ∀ (e : Endian) (pid ttl : Nat) (addr_str : String) (ms : Int),
        cout_lines (hop_body e pid
          { set_ttl_ok := true, send_ok := true, recv := Recv.received rb addr_str ms } ttl).1 =
          (if t.val = 11 then [Line.intermediate ttl addr_str ms]
            else if t.val = 0 then [Line.reply ttl addr_str ms, Line.destination_reached]
            else [Line.unexpected ttl addr_str ms t.val]) ∧
        (Line.unexpected ttl addr_str ms t.val).text =
          toString ttl ++ "\t" ++ addr_str ++ "\t" ++ toString ms ++ "ms (ICMP type " ++
            toString t.val ++ ")\n" := by
  obtain ⟨b0, t, h0, ht, -, -, hk⟩ := classify_some rb
  have hoff : b0.val % 16 * 4 = 4 * (b0.val % 16) := Nat.mul_comm _ _
  rw [hoff] at ht
  have hkind : kind_of_type t = (if t.val = 11 then Kind.intermediate
      else if t.val = 0 then Kind.reached else Kind.unexpected t.val) := by
    simp only [kind_of_type, ICMP_TIME_EXCEEDED, ICMP_ECHOREPLY, Fin.ext_iff]
    rfl
  refine ⟨b0, t, h0, ht, by rw [hk, hkind], ?_, ?_⟩
  · intro h5
    rw [h5] at ht
    exact ht
  · intro e pid ttl addr_str ms
    refine ⟨?_, rfl⟩
    rw [hkind] at hk
    by_cases h11 : t.val = 11
    · rw [if_pos h11] at hk ⊢
      simp [hop_body, hk, cout_lines]
    · rw [if_neg h11] at hk ⊢
      by_cases hz : t.val = 0
      · rw [if_pos hz] at hk ⊢
        simp [hop_body, hk, cout_lines]
      · rw [if_neg hz] at hk ⊢
        simp [hop_body, hk, cout_lines]

theorem classification_by_type_octet_witness :
    (0x45 : Byte).val % 16 = 5 ∧
      (sample_buffer 0x45 3).data.get? 20 = some 3 ∧
      classify (sample_buffer 0x45 3).data = some (Kind.unexpected 3) ∧
      cout_lines (hop_body Endian.little 4242
        { set_ttl_ok := true, send_ok := true,
          recv := Recv.received (sample_buffer 0x45 3) "10.0.0.9" 7 } 2).1 =
        [Line.unexpected 2 "10.0.0.9" 7 3] := by
  obtain ⟨b0, t, h0, -, hc, h5, hout⟩ := classification_by_type_octet (sample_buffer 0x45 3)
  have hfirst : (sample_buffer 0x45 3).data.get? 0 = some 0x45 := rfl
  rw [hfirst] at h0
  have hb : b0 = 0x45 := (Option.some.inj h0).symm
  subst hb
  have h20 := h5 (by decide)
  have htype : (sample_buffer 0x45 3).data.get? 20 = some 3 := rfl
  rw [htype] at h20
  have ht : t = 3 := (Option.some.inj h20).symm
  subst ht
  exact ⟨by decide, htype, hc, (hout Endian.little 4242 2 "10.0.0.9" 7).1⟩

/-- C5: for every hop limit in [1, 30] and every 16-bit identifier, the probe
as built validates: the checksum of the finished 64 octets, checksum field
included, is 0, and the stored checksum is the checksum of the same octets
with the checksum field zero. -/
theorem probe_validates (e : Endian) (id ttl : Nat) (hlo : 1 ≤ ttl) (hhi : ttl ≤ MAX_TTL)
    (hid : id < 2 ^ 16) :
    compute_checksum e ((build_probe e id ttl).bytes e) = 0 ∧
      ((build_probe e id ttl).bytes e).length = PACKET_SIZE ∧
      read16 e ((build_probe e id ttl).bytes e) 2 =
        some (compute_checksum e (write16 e ((build_probe e id ttl).bytes e) 2 0)) ∧
      (build_probe e id ttl).header.type = ICMP_ECHO ∧
      (build_probe e id ttl).header.code = 0 ∧
      (build_probe e id ttl).header.id = id ∧
      (build_probe e id ttl).header.sequence = ttl ∧
      (build_probe e id ttl).msg = List.replicate 56 0 := by
  have hlen := probe_template_length e id ttl
  have hzero := probe_template_zero e id ttl
  have httl : ttl % 2 ^ 16 = ttl := Nat.mod_eq_of_lt (by simp only [MAX_TTL] at hhi; omega)
  refine ⟨?_, ?_, ?_, rfl, rfl, Nat.mod_eq_of_lt hid, httl, rfl⟩
  · rw [build_probe_bytes]
    nth_rewrite 2 [← hzero]
    exact stored_checksum_validates e _ 2 (by decide) (by rw [hlen]; decide)
  · cases e <;> rfl
  · rw [build_probe_bytes, read16_write16 e _ 2 _ (by rw [hlen]; decide),
      write16_write16 e _ 2 _ _ (by rw [hlen]; decide), hzero,
      Nat.mod_eq_of_lt (compute_checksum_lt e _)]

theorem probe_validates_witness :
    (1 ≤ 7 ∧ 7 ≤ MAX_TTL ∧ 4242 < 2 ^ 16) ∧
      (build_probe Endian.little 4242 7).bytes Endian.little =
        [8, 0, 0x5E, 0xEF, 0x92, 0x10, 7, 0] ++ List.replicate 56 0 ∧
      compute_checksum Endian.little ((build_probe Endian.little 4242 7).bytes Endian.little) = 0 :=
  ⟨by decide, by decide, (probe_validates Endian.little 4242 7 (by decide) (by decide)
    (by decide)).1⟩

/-- C7: for every hop number in [1, 30] and every identifier, the sequence
field of the probe built in that iteration, the 16-bit host-order word at
byte offset 6, equals the hop number. -/
theorem probe_sequence (e : Endian) (pid ttl : Nat) (hlo : 1 ≤ ttl) (hhi : ttl ≤ MAX_TTL) :
    read16 e ((build_probe e pid ttl).bytes e) 6 = some ttl ∧
      (build_probe e pid ttl).header.sequence = ttl := by
  have httl : ttl % 2 ^ 16 = ttl := Nat.mod_eq_of_lt (by simp only [MAX_TTL] at hhi; omega)
  constructor
  · have h : read16 e ((build_probe e pid ttl).bytes e) 6 = some (ttl % 2 ^ 16 % 65536) := by
      cases e <;> simp only [read16, build_probe, ICMPPacket.bytes, store16, zero_packet,
        List.cons_append, List.nil_append, List.get?, load16, lo8, hi8] <;> congr 1 <;> omega
    rw [h, httl]
    exact congrArg some httl
  · exact httl

theorem probe_sequence_witness :
    (1 ≤ 30 ∧ 30 ≤ MAX_TTL) ∧
      read16 Endian.big ((build_probe Endian.big 70000 30).bytes Endian.big) 6 = some 30 ∧
      (build_probe Endian.big 70000 30).header.sequence = 30 :=
  ⟨by decide, probe_sequence Endian.big 70000 30 (by decide) (by decide)⟩

/-- C9: whatever the hop limit and the identifier, the probe is 64 octets
long: an 8-octet header followed by 56 zero octets of payload. -/
theorem probe_length (e : Endian) (pid ttl : Nat) :
    ((build_probe e pid ttl).bytes e).length = PACKET_SIZE ∧ PACKET_SIZE = 64 ∧
      ((build_probe e pid ttl).bytes e).take 8 =
        [ICMP_ECHO, 0] ++ store16 e (build_probe e pid ttl).header.checksum ++
          store16 e (pid % 2 ^ 16) ++ store16 e (ttl % 2 ^ 16) ∧
      ((build_probe e pid ttl).bytes e).drop 8 = List.replicate 56 0 := by
  cases e <;> exact ⟨rfl, rfl, rfl, rfl⟩

/-- C6 fails as stated: when `setsockopt(IP_TTL)` fails the iteration is left
at once.  With the hop limit rejected at every hop, the run consists of 30
error messages: no probe is sent and no line is written for any hop. -/
theorem set_ttl_failure_sends_nothing :
    (ttl_rejected_env 1).set_ttl_ok = false ∧
      run_hops Endian.little 4242 ttl_rejected_env =
        List.replicate 30 (Event.perror "Failed to set TTL") ∧
      sent_packets (run_hops Endian.little 4242 ttl_rejected_env) = [] ∧
      cout_lines (run_hops Endian.little 4242 ttl_rejected_env) = [] := by
  have hrun : run_hops Endian.little 4242 ttl_rejected_env =
      List.replicate 30 (Event.perror "Failed to set TTL") :=
    hop_loop_all_rejected Endian.little 4242 ttl_rejected_env (fun _ => rfl) 30 1 rfl
  refine ⟨rfl, hrun, ?_, ?_⟩
  · rw [hrun]
    decide
  · rw [hrun]
    decide

/-- C6 as the code has it: for every ttl in [1, 30], when setting the hop
limit fails at that ttl, the run goes on but the iteration ends there: the
only action of the iteration is the error message "Failed to set TTL", no
probe is built or sent and no line is written for that hop, and the loop
continues with the iteration for ttl + 1. -/
theorem set_ttl_failure_skips_iteration (e : Endian) (pid : Nat) (env : Nat → Hop) (ttl : Nat)
    (_hlo : 1 ≤ ttl) (hhi : ttl ≤ MAX_TTL) (hfail : (env ttl).set_ttl_ok = false) :
    hop_body e pid (env ttl) ttl = ([Event.perror "Failed to set TTL"], false) ∧
      sent_packets (hop_body e pid (env ttl) ttl).1 = [] ∧
      cout_lines (hop_body e pid (env ttl) ttl).1 = [] ∧
      hop_loop e pid env ttl =
        Event.perror "Failed to set TTL" :: hop_loop e pid env (ttl + 1) := by
  have hb := hop_body_set_ttl_failed e pid (env ttl) ttl hfail
  refine ⟨hb, ?_, ?_, ?_⟩
  · rw [hb]
    rfl
  · rw [hb]
    rfl
  · rw [hop_loop_unfold e pid env ttl hhi, hb]
    rfl

theorem set_ttl_failure_skips_iteration_witness :
    (1 ≤ 3 ∧ 3 ≤ MAX_TTL ∧ (ttl_rejected_env 3).set_ttl_ok = false) ∧
      (hop_body Endian.little 4242 (ttl_rejected_env 3) 3 =
          ([Event.perror "Failed to set TTL"], false) ∧
        sent_packets (hop_body Endian.little 4242 (ttl_rejected_env 3) 3).1 = [] ∧
        cout_lines (hop_body Endian.little 4242 (ttl_rejected_env 3) 3).1 = [] ∧
        hop_loop Endian.little 4242 ttl_rejected_env 3 =
          Event.perror "Failed to set TTL" :: hop_loop Endian.little 4242 ttl_rejected_env 4) :=
  ⟨⟨by decide, by decide, rfl⟩,
    set_ttl_failure_skips_iteration Endian.little 4242 ttl_rejected_env 3 (by decide)
      (by decide) rfl⟩

/-- C8 fails as stated: after a timeout the next iteration need not probe
ttl + 1.  Hop 5 times out and `setsockopt(IP_TTL)` is rejected at hop 6: the
iteration for hop 6 only reports the error, no probe with sequence 6 is ever
sent, and the probes of the run carry the sequences 1, 2, 3, 4, 5, 7. -/
theorem timeout_then_rejected_sends_no_probe :
    (1 ≤ 5 ∧ 5 < MAX_TTL ∧ (rejected_after_timeout_env 5).set_ttl_ok = true ∧
        (rejected_after_timeout_env 5).send_ok = true ∧
        (rejected_after_timeout_env 5).recv = Recv.timed_out) ∧
      hop_body Endian.little 4242 (rejected_after_timeout_env 6) 6 =
        ([Event.perror "Failed to set TTL"], false) ∧
      sent_packets (hop_body Endian.little 4242 (rejected_after_timeout_env 6) 6).1 = [] ∧
      (hop_loop Endian.little 4242 rejected_after_timeout_env 6).head? =
        some (Event.perror "Failed to set TTL") ∧
      (sent_packets (run_hops Endian.little 4242 rejected_after_timeout_env)).map
          (fun packet => read16 Endian.little packet 6) =
        [some 1, some 2, some 3, some 4, some 5, some 7] ∧
      cout_text (run_hops Endian.little 4242 rejected_after_timeout_env) =
        "1\t10.0.0.1\t4ms\n2\t10.0.0.1\t4ms\n3\t10.0.0.1\t4ms\n4\t10.0.0.1\t4ms\n" ++
        "5\t*\tRequest timed out\n7\t192.0.2.7\t21ms\nDestination reached.\n" := by
  have hrun := rejected_after_timeout_run Endian.little 4242
  have hsix : hop_body Endian.little 4242 (rejected_after_timeout_env 6) 6 =
      ([Event.perror "Failed to set TTL"], false) := rfl
  refine ⟨⟨by decide, by decide, rfl, rfl, rfl⟩, hsix, ?_, ?_, ?_, ?_⟩
  · rw [hsix]
    rfl
  · rw [hop_loop_unfold Endian.little 4242 _ 6 (by decide), hsix]
    rfl
  · rw [hrun]
    rfl
  · rw [hrun]
    decide

/-- C8 as the code has it: for every ttl in [1, 30], when the receive of that
hop times out the output of the hop is exactly the line
"<ttl>\t*\tRequest timed out", with no address and no latency, and the loop
does not stop: what follows is the run of the loop from ttl + 1, which for
ttl < 30 starts with the iteration for ttl + 1, and that iteration sends the
probe for ttl + 1 when the hop limit can be set there. -/
theorem timeout_reported_and_loop_continues (e : Endian) (pid : Nat) (env : Nat → Hop)
    (ttl : Nat) (_hlo : 1 ≤ ttl) (hhi : ttl ≤ MAX_TTL)
    (hset : (env ttl).set_ttl_ok = true) (hsend : (env ttl).send_ok = true)
    (hrecv : (env ttl).recv = Recv.timed_out) :
    cout_text (hop_body e pid (env ttl) ttl).1 = toString ttl ++ "\t*\tRequest timed out\n" ∧
      cout_lines (hop_body e pid (env ttl) ttl).1 = [Line.timed_out ttl] ∧
      hop_loop e pid env ttl =
        Event.sendto ((build_probe e pid ttl).bytes e) :: Event.cout (Line.timed_out ttl) ::
          hop_loop e pid env (ttl + 1) ∧
      (ttl < MAX_TTL →
        hop_loop e pid env (ttl + 1) =
          (hop_body e pid (env (ttl + 1)) (ttl + 1)).1 ++
            (if (hop_body e pid (env (ttl + 1)) (ttl + 1)).2 = true then []
              else hop_loop e pid env (ttl + 2)) ∧
        ((env (ttl + 1)).set_ttl_ok = true →
          (hop_loop e pid env (ttl + 1)).head? =
            some (Event.sendto ((build_probe e pid (ttl + 1)).bytes e)))) := by
  have hb := hop_body_timed_out e pid (env ttl) ttl hset hsend hrecv
  refine ⟨?_, ?_, ?_, ?_⟩
  · rw [hb]
    simp [cout_text, cout_lines, Line.text, String.join]
  · rw [hb]
    rfl
  · rw [hop_loop_unfold e pid env ttl hhi, hb]
    rfl
  · intro hlt
    have hnext := hop_loop_unfold e pid env (ttl + 1) hlt
    refine ⟨hnext, ?_⟩
    intro hok
    rw [hnext]
    obtain ⟨rest, hrest⟩ := hop_body_head e pid (env (ttl + 1)) (ttl + 1) hok
    rw [hrest]
    rfl

theorem timeout_reported_and_loop_continues_witness :
    (1 ≤ 5 ∧ 5 ≤ MAX_TTL ∧ (scenario_env 5).set_ttl_ok = true ∧
        (scenario_env 5).send_ok = true ∧ (scenario_env 5).recv = Recv.timed_out) ∧
      cout_text (run_hops Endian.little 4242 scenario_env) =
        "1\t10.0.0.1\t4ms\n2\t10.0.0.1\t4ms\n3\t10.0.0.1\t4ms\n4\t10.0.0.1\t4ms\n" ++
        "5\t*\tRequest timed out\n6\t192.0.2.6\t21ms\nDestination reached.\n" ∧
      (sent_packets (run_hops Endian.little 4242 scenario_env)).length = 6 ∧
      cout_text (hop_body Endian.little 4242 (scenario_env 5) 5).1 =
        "5\t*\tRequest timed out\n" ∧
      hop_loop Endian.little 4242 scenario_env 5 =
        Event.sendto ((build_probe Endian.little 4242 5).bytes Endian.little) ::
          Event.cout (Line.timed_out 5) :: hop_loop Endian.little 4242 scenario_env 6 ∧
      (hop_loop Endian.little 4242 scenario_env 6).head? =
        some (Event.sendto ((build_probe Endian.little 4242 6).bytes Endian.little)) := by
  have h := timeout_reported_and_loop_continues Endian.little 4242 scenario_env 5
    (by decide) (by decide) rfl rfl rfl
  have hrun := scenario_run Endian.little 4242
  refine ⟨⟨by decide, by decide, rfl, rfl, rfl⟩, ?_, ?_, h.1, h.2.2.1,
    (h.2.2.2 (by decide)).2 rfl⟩
  · rw [hrun]
    decide
  · rw [hrun]
    rfl

/-- C10: whatever the 1024 octets of the receive buffer are, the offset at
which the notification type is read, 4 times the low 4 bits of octet 0, is a
multiple of 4 between 0 and 60, so the octet read lies inside the buffer:
the read always succeeds, and no run of the loop ever reads outside it. -/
theorem type_octet_inside_buffer (recv_buffer : List Byte)
    (hsize : recv_buffer.length = RECV_BUFFER_SIZE) :
    (∃ b0 t, recv_buffer.get? 0 = some b0 ∧
      ip_header_len recv_buffer = some ((b0.val % 16) * 4) ∧
      ((b0.val % 16) * 4) % 4 = 0 ∧ (b0.val % 16) * 4 ≤ 60 ∧
      (b0.val % 16) * 4 < RECV_BUFFER_SIZE ∧
      recv_buffer.get? ((b0.val % 16) * 4) = some t ∧ icmp_type recv_buffer = some t) ∧
    ∀ (e : Endian) (pid : Nat) (env : Nat → Hop), Event.fault ∉ run_hops e pid env := by
  constructor
  · obtain ⟨b0, t, h0, ht, hlen, htype, -⟩ := classify_some ⟨recv_buffer, hsize⟩
    refine ⟨b0, t, h0, hlen, ?_, ?_, ?_, ht, htype⟩
    · omega
    · omega
    · simp only [RECV_BUFFER_SIZE]
      omega
  · intro e pid env
    exact fault_not_mem_hop_loop e pid env 30 1 rfl

theorem type_octet_inside_buffer_witness :
    (sample_buffer 0x4F 9).data.length = RECV_BUFFER_SIZE ∧
      ip_header_len (sample_buffer 0x4F 9).data = some 60 ∧
      (∃ b0 t, (sample_buffer 0x4F 9).data.get? 0 = some b0 ∧
        ip_header_len (sample_buffer 0x4F 9).data = some ((b0.val % 16) * 4) ∧
        ((b0.val % 16) * 4) % 4 = 0 ∧ (b0.val % 16) * 4 ≤ 60 ∧
        (b0.val % 16) * 4 < RECV_BUFFER_SIZE ∧
        (sample_buffer 0x4F 9).data.get? ((b0.val % 16) * 4) = some t ∧
        icmp_type (sample_buffer 0x4F 9).data = some t) :=
  ⟨(sample_buffer 0x4F 9).size_eq, rfl,
    (type_octet_inside_buffer (sample_buffer 0x4F 9).data (sample_buffer 0x4F 9).size_eq).1⟩

end Traceroute
